import Mathlib

/-!
Shallow embedding of the Buddy-Hunt end-to-end encryption core
(CryptoPrimitives, X3DHKeyAgreement, DoubleRatchet, KeyManagementService).

Modelling conventions:
* Byte strings are symbolic terms (`Bytes`): HKDF, HMAC, DH outputs and
  slices are free constructors, so two byte strings are equal exactly when
  the ideal primitives produce them from the same inputs.
* X25519 key pairs are identified by their private scalar (a `Nat`); an
  exported public key is determined by that scalar.  `dh` normalises its
  two scalars with `min`/`max`, capturing the commutativity
  DH(a, pub b) = DH(b, pub a) of X25519 and nothing more.
* Fresh randomness (key generation, AES-GCM nonces) is an explicit counter
  (`rng`) threaded through the state, mirroring the secure random source.
* JavaScript methods mutate `this.state` step by step and a `throw`
  aborts the method but keeps all mutations already performed; stateful
  operations are therefore embedded as functions returning the (possibly
  partially mutated) state *together with* an optional error.
-/

namespace BuddyHunt

set_option maxRecDepth 8000

/-- Symbolic byte strings produced by the cryptographic primitives. -/
inductive Bytes where
  | str : String → Bytes
  | zeros : Nat → Bytes
  | pubKey : Nat → Bytes
  | dhOut : Nat → Nat → Bytes
  | hkdfOut : Bytes → Bytes → Bytes → Nat → Bytes
  | hmacOut : Bytes → Bytes → Bytes
  | cat : Bytes → Bytes → Bytes
  | slice : Bytes → Nat → Nat → Bytes
deriving DecidableEq, Repr

/-- `CryptoPrimitives.deriveSharedSecret`: X25519 ECDH on the key pair with
private scalar `priv` and the public key of scalar `pubScalar`.  The
unordered pair is normalised so that DH commutes, as it does on the curve. -/
def dh (priv pubScalar : Nat) : Bytes :=
  Bytes.dhOut (min priv pubScalar) (max priv pubScalar)

/-- `CryptoPrimitives.hkdf` (HKDF-SHA256, ideal). -/
def hkdf (ikm salt info : Bytes) (len : Nat) : Bytes :=
  Bytes.hkdfOut ikm salt info len

/-- `CryptoPrimitives.hmac` (HMAC-SHA256, ideal). -/
def hmac (key data : Bytes) : Bytes :=
  Bytes.hmacOut key data

/-- Error conditions surfaced by the core (thrown `Error`s in the source). -/
inductive Err where
  | AuthenticationFailure
  | SkippedTooMany
  | SessionNotFound
  | SignedPreKeyNotFound
deriving DecidableEq, Repr

/-- An AES-256-GCM ciphertext.  The record keeps the key, plaintext, nonce
and associated data that produced it: with an ideal AEAD, decryption
succeeds exactly when all of key, nonce and associated data match. -/
structure Ciph where
  key : Bytes
  pt : Bytes
  iv : Nat
  ad : Option Bytes
deriving DecidableEq, Repr

/-- `CryptoPrimitives.encryptAESGCM`: encrypts with a fresh random nonce
(`ivFresh`, drawn from the caller's randomness counter). -/
def encryptAESGCM (key pt : Bytes) (ad : Option Bytes) (ivFresh : Nat) :
    Ciph × Nat :=
  ({ key := key, pt := pt, iv := ivFresh, ad := ad }, ivFresh)

/-- `CryptoPrimitives.decryptAESGCM`: ideal AEAD open — returns the
plaintext when key, nonce and associated data all match, otherwise fails
with `AuthenticationFailure` and no partial output. -/
def decryptAESGCM (key : Bytes) (c : Ciph) (iv : Nat) (ad : Option Bytes) :
    Except Err Bytes :=
  if c.key = key ∧ c.iv = iv ∧ c.ad = ad then Except.ok c.pt
  else Except.error Err.AuthenticationFailure

/-- `TextDecoder.decode` on an encoded string. -/
def decodeStr : Bytes → String
  | Bytes.str s => s
  | _ => ("")

/-! ## X3DHKeyAgreement -/

/-- `PreKeyBundle` (public half): each public key is identified by the
scalar of its key pair. -/
structure PreKeyBundle where
  identityKey : Nat
  signedPreKey : Nat
  oneTimePreKey : Option Nat
deriving DecidableEq, Repr

/-- `X3DHKeyAgreement.performX3DH` (initiator): DH1 = DH(idPriv, SPK),
DH2 = DH(ephPriv, IK), DH3 = DH(ephPriv, SPK), optionally
DH4 = DH(ephPriv, OPK), concatenated in that order and fed to HKDF with a
32-byte zero salt and the fixed info string. -/
def performX3DH (idPriv ephPriv : Nat) (b : PreKeyBundle) : Bytes :=
  let dh1 := dh idPriv b.signedPreKey
  let dh2 := dh ephPriv b.identityKey
  let dh3 := dh ephPriv b.signedPreKey
  let s3 := Bytes.cat (Bytes.cat dh1 dh2) dh3
  let ikm :=
    match b.oneTimePreKey with
    | some otk => Bytes.cat s3 (dh ephPriv otk)
    | none => s3
  hkdf ikm (Bytes.zeros 32) (Bytes.str ("BuddyHunt X3DH")) 32

/-- The responder-side X3DH computation inlined in
`KeyManagementService.acceptConversation`: dh1 = DH(spkPriv, senderIK),
dh2 = DH(idPriv, senderEph), dh3 = DH(spkPriv, senderEph), optionally
dh4 = DH(opkPriv, senderEph), same concatenation order, same HKDF. -/
def acceptX3DH (signedPreKeyPriv idPriv : Nat) (oneTimePreKeyPriv : Option Nat)
    (senderIdentityPub ephemeralPub : Nat) : Bytes :=
  let dh1 := dh signedPreKeyPriv senderIdentityPub
  let dh2 := dh idPriv ephemeralPub
  let dh3 := dh signedPreKeyPriv ephemeralPub
  let s3 := Bytes.cat (Bytes.cat dh1 dh2) dh3
  let ikm :=
    match oneTimePreKeyPriv with
    | some otk => Bytes.cat s3 (dh otk ephemeralPub)
    | none => s3
  hkdf ikm (Bytes.zeros 32) (Bytes.str ("BuddyHunt X3DH")) 32

/-! ## DoubleRatchet -/

/-- `RatchetState` of `DoubleRatchet`.  `dhSendPriv` is the private scalar
of the current sending key pair, `dhRecv` the scalar identifying the last
known remote ratchet public key.  `skippedKeys` mirrors the source's
`Map<string, ArrayBuffer>` whose keys are the decimal string of a counter;
`rng` is the randomness counter. -/
structure RatchetState where
  rootKey : Bytes
  chainKeySend : Bytes
  chainKeyRecv : Bytes
  dhSendPriv : Nat
  dhRecv : Option Nat
  pn : Nat
  ns : Nat
  nr : Nat
  skippedKeys : List (Nat × Bytes)
  rng : Nat
deriving DecidableEq, Repr

/-- `Map.set` on the skipped-key map: replace an existing entry for the
key, otherwise append. -/
def mapSet (m : List (Nat × Bytes)) (k : Nat) (v : Bytes) :
    List (Nat × Bytes) :=
  match m with
  | [] => [(k, v)]
  | (k1, v1) :: rest =>
    if k1 = k then (k, v) :: rest else (k1, v1) :: mapSet rest k v

/-- Message header `{dhPublicKey, pn, n}`; the ratchet public key is
identified by its scalar. -/
structure Header where
  dhPublicKey : Nat
  pn : Nat
  n : Nat
deriving DecidableEq, Repr

/-- `EncryptedMessage`: header + ciphertext + nonce. -/
structure EncryptedMessage where
  header : Header
  ciphertext : Ciph
  iv : Nat
deriving DecidableEq, Repr

def MAX_SKIP : Nat := 1000

/-- `DoubleRatchet.deriveRootChainKeys`: HKDF(dhOutput, salt := rootKey,
info := "BuddyHunt Root Chain", 64 bytes), split 32/32. -/
def deriveRootChainKeys (rootKey dhOutput : Bytes) : Bytes × Bytes :=
  let derived := hkdf dhOutput rootKey (Bytes.str ("BuddyHunt Root Chain")) 64
  (Bytes.slice derived 0 32, Bytes.slice derived 32 64)

/-- `DoubleRatchet.deriveMessageKey`: two domain-separated HMACs of the
chain key. -/
def deriveMessageKey (chainKey : Bytes) : Bytes × Bytes :=
  (hmac chainKey (Bytes.str ("MESSAGE_KEY_SEED")),
   hmac chainKey (Bytes.str ("CHAIN_KEY_SEED")))

/-- `DoubleRatchet.initializeAlice`: generate a sending key pair (fresh
scalar `rng`), run one root-KDF step on DH(own send, remote), leave the
receiving chain as a zero buffer. -/
def initAlice (sharedKey : Bytes) (remotePub : Nat) (rng : Nat) :
    RatchetState :=
  let dhSend := rng
  let rc := deriveRootChainKeys sharedKey (dh dhSend remotePub)
  { rootKey := rc.1
    chainKeySend := rc.2
    chainKeyRecv := Bytes.zeros 32
    dhSendPriv := dhSend
    dhRecv := some remotePub
    pn := 0
    ns := 0
    nr := 0
    skippedKeys := []
    rng := rng + 1 }

/-- `DoubleRatchet.initializeBob`: root key := shared secret, both chain
keys are fresh zero buffers (`new ArrayBuffer(32)`), sending key pair :=
the supplied key pair, no remote key yet. -/
def initBob (sharedKey : Bytes) (keyPairPriv : Nat) (rng : Nat) :
    RatchetState :=
  { rootKey := sharedKey
    chainKeySend := Bytes.zeros 32
    chainKeyRecv := Bytes.zeros 32
    dhSendPriv := keyPairPriv
    dhRecv := none
    pn := 0
    ns := 0
    nr := 0
    skippedKeys := []
    rng := rng }

/-- `DoubleRatchet.encrypt`: derive message key, advance the sending
chain, AEAD-encrypt with a fresh nonce and **no associated data**, attach
header {own send public key, pn, ns}, then increment ns. -/
def ratchetEncrypt (st : RatchetState) (plaintext : String) :
    EncryptedMessage × RatchetState :=
  let mk := deriveMessageKey st.chainKeySend
  let st1 := { st with chainKeySend := mk.2 }
  let enc := encryptAESGCM mk.1 (Bytes.str plaintext) none st1.rng
  let st2 := { st1 with rng := st1.rng + 1 }
  let msg : EncryptedMessage :=
    { header := { dhPublicKey := st2.dhSendPriv, pn := st2.pn, n := st2.ns }
      ciphertext := enc.1
      iv := enc.2 }
  (msg, { st2 with ns := st2.ns + 1 })

/-- The while-loop of `DoubleRatchet.skipMessageKeys`: as long as
`nr < untilN`, cache the message key under the decimal counter `nr`,
advance the receiving chain and increment `nr`.  `fuel` bounds the
iteration count; the caller passes `untilN - nr`, which is exact. -/
def skipLoop : Nat → RatchetState → Nat → RatchetState
  | 0, st, _ => st
  | fuel + 1, st, untilN =>
    if st.nr < untilN then
      let mk := deriveMessageKey st.chainKeyRecv
      skipLoop fuel
        { st with
          skippedKeys := mapSet st.skippedKeys st.nr mk.1
          chainKeyRecv := mk.2
          nr := st.nr + 1 } untilN
    else st

/-- `DoubleRatchet.skipMessageKeys`: throw `SkippedTooMany` when
`nr + MAX_SKIP < untilN` (before any mutation), otherwise run the loop. -/
def skipMessageKeys (st : RatchetState) (untilN : Nat) :
    RatchetState × Option Err :=
  if st.nr + MAX_SKIP < untilN then (st, some Err.SkippedTooMany)
  else (skipLoop (untilN - st.nr) st untilN, none)

/-- `DoubleRatchet.performDHRatchet`: in source order — set pn := ns,
ns := 0, nr := 0, dhRecv := the new remote key; then skip up to the
header's pn (a throw here keeps those mutations); then derive the new
receiving chain from DH(current send key, new remote), generate a fresh
sending key pair, and derive the new sending chain from a second
root-KDF step. -/
def performDHRatchet (st : RatchetState) (remotePub pnHdr : Nat) :
    RatchetState × Option Err :=
  let st1 := { st with pn := st.ns, ns := 0, nr := 0, dhRecv := some remotePub }
  match skipMessageKeys st1 pnHdr with
  | (st2, some e) => (st2, some e)
  | (st2, none) =>
    let dhOutput := dh st2.dhSendPriv remotePub
    let rc := deriveRootChainKeys st2.rootKey dhOutput
    let st3 := { st2 with rootKey := rc.1, chainKeyRecv := rc.2 }
    let newDh := st3.rng
    let st4 := { st3 with dhSendPriv := newDh, rng := st3.rng + 1 }
    let rc2 := deriveRootChainKeys st4.rootKey (dh newDh remotePub)
    ({ st4 with rootKey := rc2.1, chainKeySend := rc2.2 }, none)

/-- The tail of `DoubleRatchet.decrypt` after the DH-ratchet check: skip
missing keys, derive the message key from the receiving chain, advance
the chain and increment nr, and only then AEAD-decrypt — so an
authentication failure keeps the advanced chain and counter. -/
def decryptCont (st1 : RatchetState) (m : EncryptedMessage) :
    RatchetState × Except Err String :=
  match skipMessageKeys st1 m.header.n with
  | (st2, some e) => (st2, Except.error e)
  | (st2, none) =>
    let mk := deriveMessageKey st2.chainKeyRecv
    let st3 := { st2 with chainKeyRecv := mk.2, nr := st2.nr + 1 }
    match decryptAESGCM mk.1 m.ciphertext m.iv none with
    | Except.ok pt => (st3, Except.ok (decodeStr pt))
    | Except.error e => (st3, Except.error e)

/-- `DoubleRatchet.decrypt`: perform a DH-ratchet step when the header's
ratchet key is unknown or differs from the last known remote key, then
continue with `decryptCont`. -/
def ratchetDecrypt (st : RatchetState) (m : EncryptedMessage) :
    RatchetState × Except Err String :=
  if st.dhRecv = some m.header.dhPublicKey then decryptCont st m
  else
    match performDHRatchet st m.header.dhPublicKey m.header.pn with
    | (st1, some e) => (st1, Except.error e)
    | (st1, none) => decryptCont st1 m

/-! ## KeyManagementService (session registry) -/

/-- `ConversationSession`: conversation handle ↦ ratchet plus
creation/last-used timestamps (epoch numbers). -/
structure Session where
  ratchet : RatchetState
  createdAt : Nat
  lastUsed : Nat
deriving DecidableEq, Repr

/-- The session registry `sessions : Map<string, ConversationSession>`. -/
def Registry := List (String × Session)

instance : DecidableEq Registry := by
  unfold Registry; infer_instance

/-- `Map.get` on the registry. -/
def lookupSession (r : Registry) (cid : String) : Option Session :=
  match r with
  | [] => none
  | (k, s) :: rest => if k = cid then some s else lookupSession rest cid

/-- `Map.set` on the registry (replace in place, else append). -/
def setSession (r : Registry) (cid : String) (s : Session) : Registry :=
  match r with
  | [] => [(cid, s)]
  | (k, s1) :: rest =>
    if k = cid then (cid, s) :: rest else (k, s1) :: setSession rest cid s

/-- `KeyManagementService.encryptMessage`: unknown handle ⇒ throw with the
registry untouched; otherwise update `lastUsed` and delegate to the
session's ratchet. -/
def encryptMessage (r : Registry) (now : Nat) (cid : String)
    (plaintext : String) : Registry × Except Err EncryptedMessage :=
  match lookupSession r cid with
  | none => (r, Except.error Err.SessionNotFound)
  | some s =>
    let res := ratchetEncrypt s.ratchet plaintext
    (setSession r cid { s with lastUsed := now, ratchet := res.2 },
     Except.ok res.1)

/-- `KeyManagementService.decryptMessage`: unknown handle ⇒ throw with the
registry untouched; otherwise update `lastUsed` and delegate (mutations
made by the ratchet before a decryption error persist in the session). -/
def decryptMessage (r : Registry) (now : Nat) (cid : String)
    (m : EncryptedMessage) : Registry × Except Err String :=
  match lookupSession r cid with
  | none => (r, Except.error Err.SessionNotFound)
  | some s =>
    let res := ratchetDecrypt s.ratchet m
    (setSession r cid { s with lastUsed := now, ratchet := res.1 }, res.2)

/-! ## Trace drivers and concrete sessions

Driver functions iterate the public API the way two clients would;
`aliceSt0`/`bobSt0` are the two ends of one conversation, built from the
same X3DH shared secret exactly as `startConversation`/`acceptConversation`
build them: Alice runs `initializeAlice(sharedKey, bobSignedPreKeyPub)`,
Bob runs `initializeBob(sharedKey, bobSignedPreKeyPair)`.  Scalar 10 is
Bob's signed-prekey pair; 20 and 30 are the next fresh scalars drawn by
Alice's and Bob's randomness. -/

/-- Sender loop: `n` consecutive `encrypt` calls with plaintext `"p"`. -/
def encryptN : RatchetState → Nat → RatchetState × List EncryptedMessage
  | st, 0 => (st, [])
  | st, n + 1 =>
    let r := ratchetEncrypt st ("p")
    let rest := encryptN r.2 n
    (rest.1, r.1 :: rest.2)

/-- Receiver loop: `decrypt` each delivered message in order, collecting
the results. -/
def bobRun : RatchetState → List EncryptedMessage →
    RatchetState × List (Except Err String)
  | st, [] => (st, [])
  | st, m :: ms =>
    let r := ratchetDecrypt st m
    let rest := bobRun r.1 ms
    (rest.1, r.2 :: rest.2)

/-- The X3DH shared secret of the concrete conversation (opaque). -/
def SK : Bytes := Bytes.str ("sharedKey")

/-- Alice's session after `initializeAlice(SK, bobSignedPreKeyPub)`. -/
def aliceSt0 : RatchetState := initAlice SK 10 20

/-- Bob's session after `initializeBob(SK, bobSignedPreKeyPair)`. -/
def bobSt0 : RatchetState := initBob SK 10 30

/-- Root key after the root-KDF step both sides run on
DH(aliceSend = 20, bobSignedPreKey = 10). -/
def R1 : Bytes := (deriveRootChainKeys SK (dh 10 20)).1

/-- Alice's first sending chain key (= Bob's first receiving chain key). -/
def ckA0 : Bytes := (deriveRootChainKeys SK (dh 10 20)).2

/-- Root key after Bob's second root-KDF step (his first DH ratchet). -/
def R2 : Bytes := (deriveRootChainKeys R1 (dh 20 30)).1

/-- Bob's first sending chain key. -/
def ckB0 : Bytes := (deriveRootChainKeys R1 (dh 20 30)).2

/-- `n`-fold symmetric-ratchet advance of a chain key. -/
def ckIter : Bytes → Nat → Bytes
  | ck, 0 => ck
  | ck, n + 1 => hmac (ckIter ck n) (Bytes.str ("CHAIN_KEY_SEED"))

/-- Alice's state after `k` sends of `"p"` from `aliceSt0`. -/
def aliceAfter (k : Nat) : RatchetState :=
  { rootKey := R1
    chainKeySend := ckIter ckA0 k
    chainKeyRecv := Bytes.zeros 32
    dhSendPriv := 20
    dhRecv := some 10
    pn := 0
    ns := k
    nr := 0
    skippedKeys := []
    rng := 21 + k }

/-- Alice's `k`-th message in that run. -/
def aliceMsg (k : Nat) : EncryptedMessage :=
  { header := { dhPublicKey := 20, pn := 0, n := k }
    ciphertext :=
      { key := hmac (ckIter ckA0 k) (Bytes.str ("MESSAGE_KEY_SEED"))
        pt := Bytes.str ("p")
        iv := 21 + k
        ad := none }
    iv := 21 + k }

/-- The messages `aliceMsg k, …, aliceMsg (k+n-1)`. -/
def aliceMsgs : Nat → Nat → List EncryptedMessage
  | _, 0 => []
  | k, n + 1 => aliceMsg k :: aliceMsgs (k + 1) n

/-- Bob's state right after his first DH ratchet in this conversation. -/
def bobBase : RatchetState :=
  { rootKey := R2
    chainKeySend := ckB0
    chainKeyRecv := ckA0
    dhSendPriv := 30
    dhRecv := some 20
    pn := 0
    ns := 0
    nr := 0
    skippedKeys := []
    rng := 31 }

/-- Bob's state after decrypting `aliceMsg 0, …, aliceMsg (k-1)` in order. -/
def bobAfter (k : Nat) : RatchetState :=
  { bobBase with chainKeyRecv := ckIter ckA0 k, nr := k }

/-! Concrete artefacts for the individual claims. -/

/-- Bob's first message when he sends before decrypting anything. -/
def bobFirstMsg : EncryptedMessage := (ratchetEncrypt bobSt0 ("hi")).1

/-- Alice's legitimate first message. -/
def m0 : EncryptedMessage := (ratchetEncrypt aliceSt0 ("hello")).1

/-- `m0` with a forged ciphertext (same header and nonce, tag cannot
verify because the ciphertext was not produced under the message key). -/
def forged : EncryptedMessage :=
  { m0 with ciphertext := { m0.ciphertext with key := Bytes.str ("junk") } }

/-- Bob's decrypt of the forged message. -/
def bobF : RatchetState × Except Err String := ratchetDecrypt bobSt0 forged

/-- Alice's first two messages for the out-of-order scenario. -/
def aliceE0 : EncryptedMessage × RatchetState := ratchetEncrypt aliceSt0 ("a")

def aliceE1 : EncryptedMessage × RatchetState := ratchetEncrypt aliceE0.2 ("b")

/-- Bob receives message 1 before message 0: decrypting it caches the
skipped key for counter 0. -/
def bobD1 : RatchetState × Except Err String := ratchetDecrypt bobSt0 aliceE1.1

/-- Bob then receives the late message 0. -/
def bobD0 : RatchetState × Except Err String := ratchetDecrypt bobD1.1 aliceE0.1

/-- A mid-conversation receiver state: one key of the current receiving
chain already consumed (Nr = 1), five messages sent (Ns = 5). -/
def stC4 : RatchetState :=
  { rootKey := Bytes.str ("rk")
    chainKeySend := Bytes.str ("cks")
    chainKeyRecv := Bytes.str ("ckr")
    dhSendPriv := 7
    dhRecv := some 3
    pn := 0
    ns := 5
    nr := 1
    skippedKeys := []
    rng := 40 }

/-- DH-ratchet step at `stC4` for a header announcing Pn = 2. -/
def c4res : RatchetState × Option Err := performDHRatchet stC4 9 2

/-! The C2 trace: Alice sends 1001 messages, Bob decrypts all of them in
order, Bob replies, Alice decrypts the reply and sends once more. -/

def c2A : RatchetState × List EncryptedMessage := encryptN aliceSt0 1001

def c2B : RatchetState × List (Except Err String) := bobRun bobSt0 c2A.2

def c2r0 : EncryptedMessage × RatchetState := ratchetEncrypt c2B.1 ("reply")

def c2aliceDec : RatchetState × Except Err String :=
  ratchetDecrypt c2A.1 c2r0.1

def c2m2 : EncryptedMessage × RatchetState :=
  ratchetEncrypt c2aliceDec.1 ("p")

def c2final : RatchetState × Except Err String :=
  ratchetDecrypt c2r0.2 c2m2.1

/-- Bob's reply message in the C2 trace. -/
def r0Msg : EncryptedMessage :=
  { header := { dhPublicKey := 30, pn := 0, n := 0 }
    ciphertext :=
      { key := hmac ckB0 (Bytes.str ("MESSAGE_KEY_SEED"))
        pt := Bytes.str ("reply")
        iv := 31
        ad := none }
    iv := 31 }

/-- Bob's state after sending the reply. -/
def bobSend1 : RatchetState :=
  { bobAfter 1001 with
    chainKeySend := hmac ckB0 (Bytes.str ("CHAIN_KEY_SEED"))
    ns := 1
    rng := 32 }

/-- Root key after Alice's DH ratchet on the reply. -/
def R3 : Bytes := (deriveRootChainKeys R2 (dh 30 1022)).1

/-- Alice's sending chain after her DH ratchet on the reply. -/
def ckA1 : Bytes := (deriveRootChainKeys R2 (dh 30 1022)).2

/-- Alice's state after decrypting the reply. -/
def aliceDec1 : RatchetState :=
  { rootKey := R3
    chainKeySend := ckA1
    chainKeyRecv := hmac ckB0 (Bytes.str ("CHAIN_KEY_SEED"))
    dhSendPriv := 1022
    dhRecv := some 30
    pn := 1001
    ns := 0
    nr := 1
    skippedKeys := []
    rng := 1023 }

/-- Alice's next message, opening her second sending chain. -/
def m2Msg : EncryptedMessage :=
  { header := { dhPublicKey := 1022, pn := 1001, n := 0 }
    ciphertext :=
      { key := hmac ckA1 (Bytes.str ("MESSAGE_KEY_SEED"))
        pt := Bytes.str ("p")
        iv := 1023
        ad := none }
    iv := 1023 }

/-! Concrete inputs for witnesses. -/

/-- A generic mid-conversation state for witnesses. -/
def stW : RatchetState :=
  { rootKey := Bytes.str ("r")
    chainKeySend := Bytes.str ("s")
    chainKeyRecv := Bytes.str ("c")
    dhSendPriv := 1
    dhRecv := some 5
    pn := 0
    ns := 2
    nr := 3
    skippedKeys := []
    rng := 9 }

/-- A message carrying the known remote ratchet key. -/
def mW : EncryptedMessage :=
  { header := { dhPublicKey := 5, pn := 0, n := 3 }
    ciphertext := { key := Bytes.str ("k"), pt := Bytes.str ("q"), iv := 0, ad := none }
    iv := 0 }

/-- The same message with an unknown ratchet key. -/
def mW2 : EncryptedMessage :=
  { mW with header := { mW.header with dhPublicKey := 6 } }

/-- A registered session for the registry witnesses. -/
def sessW : Session := { ratchet := stW, createdAt := 0, lastUsed := 0 }

/-- A one-session registry. -/
def regW : Registry := [(("c1"), sessW)]

/-! ## Helper lemmas -/

/-- ECDH commutes: both key pairs derive the same shared secret. -/
theorem dh_comm (a b : Nat) : dh a b = dh b a := by
  unfold dh; rw [Nat.min_comm, Nat.max_comm]

/-- Advancing a chain `n+1` times is one advance followed by `n`. -/
theorem ckIter_succ_left (ck : Bytes) (n : Nat) :
    ckIter ck (n + 1) = ckIter (hmac ck (Bytes.str ("CHAIN_KEY_SEED"))) n := by
  induction n with
  | zero => rfl
  | succ n ih => show hmac (ckIter ck (n + 1)) _ = _; rw [ih]; rfl

/-- The skip loop never touches the sending side, the DH keys, the root
key, or the randomness counter. -/
theorem skipLoop_fields (fuel : Nat) : ∀ st u,
    (skipLoop fuel st u).ns = st.ns ∧
    (skipLoop fuel st u).pn = st.pn ∧
    (skipLoop fuel st u).dhSendPriv = st.dhSendPriv ∧
    (skipLoop fuel st u).dhRecv = st.dhRecv ∧
    (skipLoop fuel st u).rootKey = st.rootKey ∧
    (skipLoop fuel st u).chainKeySend = st.chainKeySend ∧
    (skipLoop fuel st u).rng = st.rng := by
  induction fuel with
  | zero => intro st u; exact ⟨rfl, rfl, rfl, rfl, rfl, rfl, rfl⟩
  | succ n ih =>
    intro st u
    unfold skipLoop
    split
    · simpa using ih _ u
    · exact ⟨rfl, rfl, rfl, rfl, rfl, rfl, rfl⟩

/-- When the target is not ahead of the counter the loop does nothing. -/
theorem skipLoop_id_of_le (fuel : Nat) : ∀ st u, u ≤ st.nr →
    skipLoop fuel st u = st := by
  induction fuel with
  | zero => intro st u _; rfl
  | succ n _ =>
    intro st u h
    unfold skipLoop
    rw [if_neg (by omega)]

/-- With exact fuel the loop raises the counter to the target and
advances the receiving chain correspondingly. -/
theorem skipLoop_exact (n : Nat) : ∀ st u, u = st.nr + n →
    (skipLoop n st u).nr = u ∧
    (skipLoop n st u).chainKeyRecv = ckIter st.chainKeyRecv n := by
  induction n with
  | zero => intro st u h; subst h; exact ⟨(Nat.add_zero _).symm ▸ rfl, rfl⟩
  | succ n ih =>
    intro st u h
    unfold skipLoop
    rw [if_pos (by omega)]
    have hrec := ih { st with
      skippedKeys := mapSet st.skippedKeys st.nr
        (deriveMessageKey st.chainKeyRecv).1
      chainKeyRecv := (deriveMessageKey st.chainKeyRecv).2
      nr := st.nr + 1 } u (by simp; omega)
    refine ⟨hrec.1, hrec.2.trans ?_⟩
    show ckIter (deriveMessageKey st.chainKeyRecv).2 n = _
    simp [deriveMessageKey, ckIter_succ_left]

/-- Unfolding equation for `skipMessageKeys`. -/
theorem skipMessageKeys_spec (st : RatchetState) (u : Nat) :
    skipMessageKeys st u =
      if st.nr + MAX_SKIP < u then (st, some Err.SkippedTooMany)
      else (skipLoop (u - st.nr) st u, none) := rfl

/-- The loop run by a successful `skipMessageKeys` raises the receive
counter to the larger of its old value and the target. -/
theorem skipLoop_run_nr (st : RatchetState) (u : Nat) :
    (skipLoop (u - st.nr) st u).nr = max st.nr u := by
  rcases Nat.le_total u st.nr with hle | hle
  · rw [skipLoop_id_of_le _ _ _ hle, Nat.max_eq_left hle]
  · rw [Nat.max_eq_right hle]
    exact (skipLoop_exact (u - st.nr) st u (by omega)).1

/-- `decryptCont` never touches the sending counter or previous-chain
length. -/
theorem decryptCont_ns_pn (st : RatchetState) (m : EncryptedMessage) :
    (decryptCont st m).1.ns = st.ns ∧ (decryptCont st m).1.pn = st.pn := by
  by_cases hg : st.nr + MAX_SKIP < m.header.n
  · simp [decryptCont, skipMessageKeys_spec, hg]
  · have hf := skipLoop_fields (m.header.n - st.nr) st m.header.n
    cases hae : decryptAESGCM
        (deriveMessageKey (skipLoop (m.header.n - st.nr) st m.header.n).chainKeyRecv).1
        m.ciphertext m.iv none with
    | ok pt =>
      simp only [decryptCont, skipMessageKeys_spec, if_neg hg, hae]
      exact ⟨hf.1, hf.2.1⟩
    | error e =>
      simp only [decryptCont, skipMessageKeys_spec, if_neg hg, hae]
      exact ⟨hf.1, hf.2.1⟩

/-- Receive-counter evolution of `decryptCont`: unchanged on a
`SkippedTooMany` abort, otherwise one more than the larger of the old
counter and the header index. -/
theorem decryptCont_nr (st : RatchetState) (m : EncryptedMessage) :
    (decryptCont st m).1.nr =
      (if st.nr + MAX_SKIP < m.header.n then st.nr
       else max st.nr m.header.n + 1) := by
  by_cases hg : st.nr + MAX_SKIP < m.header.n
  · simp [decryptCont, skipMessageKeys_spec, hg]
  · have hnr := skipLoop_run_nr st m.header.n
    cases hae : decryptAESGCM
        (deriveMessageKey (skipLoop (m.header.n - st.nr) st m.header.n).chainKeyRecv).1
        m.ciphertext m.iv none with
    | ok pt =>
      simp only [decryptCont, skipMessageKeys_spec, if_neg hg, hae]
      rw [hnr]
    | error e =>
      simp only [decryptCont, skipMessageKeys_spec, if_neg hg, hae]
      rw [hnr]

/-- Counter behaviour of the DH-ratchet step: `pn` takes the old `ns`,
`ns` is cleared, and the receive counter restarts at 0 before the
old-chain skip raises it to the header's `pn` (or the step aborts). -/
theorem ratchet_counters (st : RatchetState) (r p : Nat) :
    (performDHRatchet st r p).1.ns = 0 ∧
    (performDHRatchet st r p).1.pn = st.ns ∧
    (performDHRatchet st r p).1.nr = (if MAX_SKIP < p then 0 else p) := by
  by_cases hg : MAX_SKIP < p
  · have hg0 : (0 : Nat) + MAX_SKIP < p := by omega
    simp [performDHRatchet, skipMessageKeys_spec, hg, hg0]
  · have hg0 : ¬ ((0 : Nat) + MAX_SKIP < p) := by omega
    have hf := skipLoop_fields (p - 0)
      { st with pn := st.ns, ns := 0, nr := 0, dhRecv := some r } p
    have hnr := skipLoop_run_nr
      { st with pn := st.ns, ns := 0, nr := 0, dhRecv := some r } p
    simp only [performDHRatchet, skipMessageKeys_spec] at *
    simp only [if_neg hg0] at *
    simp only [if_neg hg]
    refine ⟨by simpa using hf.1, by simpa using hf.2.1, ?_⟩
    simpa using hnr

/-- Looking a handle up right after storing a session under it returns
that session. -/
theorem lookup_setSession (r : Registry) (cid : String) (s : Session) :
    lookupSession (setSession r cid s) cid = some s := by
  induction r with
  | nil => simp [setSession, lookupSession]
  | cons hd tl ih =>
    obtain ⟨k, s1⟩ := hd
    unfold setSession
    by_cases hk : k = cid
    · rw [if_pos hk]; simp [lookupSession]
    · rw [if_neg hk]; simpa [lookupSession, hk] using ih

/-- The AEAD open fails only with `AuthenticationFailure`. -/
theorem decryptAESGCM_error (k : Bytes) (c : Ciph) (i : Nat) (a : Option Bytes)
    (e : Err) : decryptAESGCM k c i a = Except.error e →
    e = Err.AuthenticationFailure := by
  unfold decryptAESGCM
  split
  · intro h; simp at h
  · intro h; cases h; rfl

/-- When the skip guard does not fire, `decryptCont` cannot report
`SkippedTooMany`. -/
theorem decryptCont_no_skip_err (st : RatchetState) (m : EncryptedMessage)
    (hg : ¬ (st.nr + MAX_SKIP < m.header.n)) :
    (decryptCont st m).2 ≠ Except.error Err.SkippedTooMany := by
  cases hae : decryptAESGCM
      (deriveMessageKey (skipLoop (m.header.n - st.nr) st m.header.n).chainKeyRecv).1
      m.ciphertext m.iv none with
  | ok pt => simp [decryptCont, skipMessageKeys_spec, if_neg hg, hae]
  | error e =>
    have he := decryptAESGCM_error _ _ _ _ _ hae
    subst he
    simp [decryptCont, skipMessageKeys_spec, if_neg hg, hae]

/-- When the skip guard fires, `decryptCont` reports `SkippedTooMany`. -/
theorem decryptCont_skip_err (st : RatchetState) (m : EncryptedMessage)
    (hg : st.nr + MAX_SKIP < m.header.n) :
    (decryptCont st m).2 = Except.error Err.SkippedTooMany := by
  simp [decryptCont, skipMessageKeys_spec, hg]

/-- A `decryptCont` on the message the sender's chain produced at exactly
the current receive counter: no skips, the chain advances once, the
plaintext comes back. -/
theorem decryptCont_insync (st : RatchetState) (m : EncryptedMessage)
    (hn : m.header.n = st.nr)
    (hk : m.ciphertext.key
      = hmac st.chainKeyRecv (Bytes.str ("MESSAGE_KEY_SEED")))
    (hiv : m.ciphertext.iv = m.iv)
    (had : m.ciphertext.ad = none) :
    decryptCont st m =
      ({ st with
          chainKeyRecv := hmac st.chainKeyRecv (Bytes.str ("CHAIN_KEY_SEED"))
          nr := st.nr + 1 },
       Except.ok (decodeStr m.ciphertext.pt)) := by
  have hg : ¬ (st.nr + MAX_SKIP < m.header.n) := by omega
  have hfuel : m.header.n - st.nr = 0 := by omega
  simp only [decryptCont, skipMessageKeys_spec, if_neg hg, hfuel, skipLoop,
    deriveMessageKey, decryptAESGCM, hk, hiv, had]
  simp

/-- Alice's session is `aliceAfter 0` right after initialisation. -/
theorem aliceSt0_eq : aliceSt0 = aliceAfter 0 := rfl

/-- One send step of Alice's run. -/
theorem alice_step (k : Nat) :
    ratchetEncrypt (aliceAfter k) ("p") = (aliceMsg k, aliceAfter (k + 1)) :=
  rfl

/-- Alice's whole sending run, in closed form. -/
theorem alice_run (n : Nat) : ∀ k,
    encryptN (aliceAfter k) n = (aliceAfter (k + n), aliceMsgs k n) := by
  induction n with
  | zero => intro k; rw [Nat.add_zero]; rfl
  | succ n ih =>
    intro k
    simp only [encryptN, alice_step k, ih (k + 1)]
    have harith : k + 1 + n = k + (n + 1) := by omega
    rw [harith]
    rfl

/-- Bob's first decrypt performs his first DH ratchet and lands in
`bobAfter 1`. -/
theorem bob_first :
    ratchetDecrypt bobSt0 (aliceMsg 0) = (bobAfter 1, Except.ok ("p")) :=
  rfl

/-- Each further in-order decrypt advances Bob's receiving chain by one. -/
theorem bob_step (k : Nat) :
    ratchetDecrypt (bobAfter k) (aliceMsg k)
      = (bobAfter (k + 1), Except.ok ("p")) := by
  have hred : ratchetDecrypt (bobAfter k) (aliceMsg k)
      = decryptCont (bobAfter k) (aliceMsg k) := by
    unfold ratchetDecrypt
    rw [if_pos (show (bobAfter k).dhRecv
      = some (aliceMsg k).header.dhPublicKey from rfl)]
  rw [hred, decryptCont_insync (bobAfter k) (aliceMsg k) rfl rfl rfl rfl]
  rfl

/-- Bob's in-order receiving run, in closed form. -/
theorem bob_run (n : Nat) : ∀ k,
    bobRun (bobAfter k) (aliceMsgs k n)
      = (bobAfter (k + n), List.replicate n (Except.ok ("p"))) := by
  induction n with
  | zero => intro k; rw [Nat.add_zero]; rfl
  | succ n ih =>
    intro k
    show bobRun (bobAfter k) (aliceMsg k :: aliceMsgs (k + 1) n) = _
    simp only [bobRun, bob_step k, ih (k + 1)]
    have harith : k + 1 + n = k + (n + 1) := by omega
    rw [harith]
    rfl

/-! ## Claim theorems -/

/-- Claim C1 (code bug): on an inbound message whose AEAD tag does not
verify, `decrypt` is supposed to fail with `AuthenticationFailure` and
leave the ratchet state unchanged so that the legitimate message at the
same counter still decrypts.  Evaluating the code at the failing input:
the legitimate `m0` decrypts from the fresh state, the forged copy of
`m0` fails with `AuthenticationFailure` — but the state *has* mutated
(`nr` advanced, the state differs), and the subsequent legitimate `m0`
at the same counter now also fails with `AuthenticationFailure`. -/
theorem claim_C1 :
    (ratchetDecrypt bobSt0 m0).2 = Except.ok ("hello") ∧
    bobF.2 = Except.error Err.AuthenticationFailure ∧
    bobF.1.nr = bobSt0.nr + 1 ∧
    bobF.1 ≠ bobSt0 ∧
    (ratchetDecrypt bobF.1 m0).2 = Except.error Err.AuthenticationFailure := by
  exact ⟨rfl, rfl, rfl, by decide, rfl⟩

/-- Claim C3 (confirmed): the initiator's X3DH (`performX3DH`) and the
responder's mirrored computation inside `acceptConversation` produce
byte-identical shared secrets, both with a one-time prekey (4 DH
operations) and without one (3 DH operations). -/
theorem claim_C3 (aId aEph bId bSpk bOtk : Nat) :
    performX3DH aId aEph
        { identityKey := bId, signedPreKey := bSpk, oneTimePreKey := some bOtk }
      = acceptX3DH bSpk bId (some bOtk) aId aEph ∧
    performX3DH aId aEph
        { identityKey := bId, signedPreKey := bSpk, oneTimePreKey := none }
      = acceptX3DH bSpk bId none aId aEph := by
  constructor <;>
    simp only [performX3DH, acceptX3DH, dh_comm aId bSpk, dh_comm aEph bId,
      dh_comm aEph bSpk, dh_comm aEph bOtk]

/-- Claim C4 (code bug): at a DH-ratchet step triggered with old Nr = 1
and header Pn = 2, the claim demands that exactly the unconsumed keys of
the old receiving chain — counters old Nr … Pn−1, here just counter 1 —
be cached.  The code resets Nr to 0 *before* skipping, so it derives two
keys, labels them 0 and 1, and takes them from chain positions 1 and 2.
The counter bookkeeping claimed (Pn := old Ns, Ns reset) does hold. -/
theorem claim_C4 :
    c4res.2 = none ∧
    c4res.1.skippedKeys =
      [(0, hmac (Bytes.str ("ckr")) (Bytes.str ("MESSAGE_KEY_SEED"))),
       (1, hmac (hmac (Bytes.str ("ckr")) (Bytes.str ("CHAIN_KEY_SEED")))
             (Bytes.str ("MESSAGE_KEY_SEED")))] ∧
    c4res.1.skippedKeys.length = 2 ∧
    c4res.1.pn = 5 ∧
    c4res.1.ns = 0 ∧
    c4res.1.nr = 2 := by
  exact ⟨rfl, rfl, rfl, rfl, rfl, rfl⟩

/-- Claim C5 (code bug): the skipped-key cache is supposed to be keyed by
(remote ratchet public key, counter) and consulted on out-of-order
delivery, with the entry removed upon use.  Evaluating the code: Bob
decrypts Alice's second message first, which caches the key for
counter 0 (keyed by the bare counter only); the late first message then
fails with `AuthenticationFailure` — the cache is never looked up — and
the cached entry is still present afterwards. -/
theorem claim_C5 :
    bobD1.2 = Except.ok ("b") ∧
    bobD1.1.skippedKeys.map Prod.fst = [0] ∧
    bobD0.2 = Except.error Err.AuthenticationFailure ∧
    bobD0.1.skippedKeys = bobD1.1.skippedKeys := by
  exact ⟨rfl, rfl, rfl, rfl⟩

/-- Claim C9 (confirmed): `encrypt` invokes the AEAD primitive with no
associated data, so the header is not bound to the ciphertext: replacing
the header of an encrypted message while keeping ciphertext and nonce
still AEAD-decrypts under the same message key. -/
theorem claim_C9 (st : RatchetState) (pt : String) (hdr : Header) :
    (ratchetEncrypt st pt).1.ciphertext.ad = none ∧
    decryptAESGCM (hmac st.chainKeySend (Bytes.str ("MESSAGE_KEY_SEED")))
        ({ (ratchetEncrypt st pt).1 with header := hdr }).ciphertext
        ({ (ratchetEncrypt st pt).1 with header := hdr }).iv none
      = Except.ok (Bytes.str pt) := by
  constructor
  · rfl
  · simp [ratchetEncrypt, encryptAESGCM, decryptAESGCM, deriveMessageKey]

/-- Claim C10 counterexample: the claim asserts that a message Bob
encrypts before having decrypted anything cannot be decrypted by the
initiator's session; in fact Alice's session decrypts it successfully
(her receiving chain key is the same all-zero buffer). -/
theorem cex_C10 : (ratchetDecrypt aliceSt0 bobFirstMsg).2 = Except.ok ("hi") :=
  rfl

/-- Claim C10 as amended: after `initializeBob` the sending chain key is
the all-zero 32-byte buffer, and a message encrypted before any inbound
decrypt uses a message key derived from that zero buffer — independent
of the X3DH shared secret — but such a message *is* decrypted
successfully by the initiator's session (whose receiving chain key is
likewise all-zero), so these first responder messages are readable while
being protected by keys unrelated to the handshake secret. -/
theorem claim_C10 (sharedKey : Bytes) (kp rng : Nat) (pt : String) :
    (initBob sharedKey kp rng).chainKeySend = Bytes.zeros 32 ∧
    (ratchetEncrypt (initBob sharedKey kp rng) pt).1.ciphertext.key
      = hmac (Bytes.zeros 32) (Bytes.str ("MESSAGE_KEY_SEED")) ∧
    (ratchetDecrypt aliceSt0 bobFirstMsg).2 = Except.ok ("hi") := by
  exact ⟨rfl, rfl, rfl⟩

/-- Claim C8 (confirmed): for an unregistered handle both
`encryptMessage` and `decryptMessage` fail with `SessionNotFound` and
leave the registry unchanged; for a registered handle they delegate to
that session's ratchet and store it back with `lastUsed` set to the
current time. -/
theorem claim_C8 (r : Registry) (now : Nat) (cid : String) (pt : String)
    (m : EncryptedMessage) :
    (lookupSession r cid = none →
      encryptMessage r now cid pt = (r, Except.error Err.SessionNotFound) ∧
      decryptMessage r now cid m = (r, Except.error Err.SessionNotFound)) ∧
    (∀ s, lookupSession r cid = some s →
      (encryptMessage r now cid pt).2 = Except.ok (ratchetEncrypt s.ratchet pt).1 ∧
      lookupSession (encryptMessage r now cid pt).1 cid
        = some { s with lastUsed := now, ratchet := (ratchetEncrypt s.ratchet pt).2 } ∧
      (decryptMessage r now cid m).2 = (ratchetDecrypt s.ratchet m).2 ∧
      lookupSession (decryptMessage r now cid m).1 cid
        = some { s with lastUsed := now, ratchet := (ratchetDecrypt s.ratchet m).1 }) := by
  constructor
  · intro h
    constructor <;> simp [encryptMessage, decryptMessage, h]
  · intro s h
    refine ⟨?_, ?_, ?_, ?_⟩ <;>
      simp [encryptMessage, decryptMessage, h, lookup_setSession]

/-- Witness for C8 at concrete inputs: the empty registry rejects a
handle with `SessionNotFound`, and a registered handle delegates to the
session's ratchet. -/
theorem claim_C8_witness :
    (encryptMessage ([] : Registry) 5 ("c1") ("hi")
      = (([] : Registry), Except.error Err.SessionNotFound)) ∧
    ((encryptMessage regW 5 ("c1") ("hi")).2
      = Except.ok (ratchetEncrypt sessW.ratchet ("hi")).1) := by
  exact ⟨((claim_C8 ([] : Registry) 5 ("c1") ("hi") mW).1 rfl).1,
    ((claim_C8 regW 5 ("c1") ("hi") mW).2 sessW rfl).1⟩

/-- Claim C6 (confirmed): skipping fails with `SkippedTooMany` exactly
when `Nr + MAX_SKIP <` the requested index; at index `Nr + MAX_SKIP` the
skip succeeds (raising the counter to the target, so the message key is
then derived), while `Nr + MAX_SKIP + 1` fails.  The last two conjuncts
state the boundary on `decrypt` itself for a message carrying the known
remote ratchet key. -/
theorem claim_C6 (st : RatchetState) (u r p i : Nat) (c : Ciph) :
    ((skipMessageKeys st u).2 =
      if st.nr + MAX_SKIP < u then some Err.SkippedTooMany else none) ∧
    (skipMessageKeys st (st.nr + MAX_SKIP)).2 = none ∧
    (skipMessageKeys st (st.nr + MAX_SKIP)).1.nr = st.nr + MAX_SKIP ∧
    (skipMessageKeys st (st.nr + MAX_SKIP + 1)).2 = some Err.SkippedTooMany ∧
    ((ratchetDecrypt { st with dhRecv := some r }
        { header := { dhPublicKey := r, pn := p, n := st.nr + MAX_SKIP },
          ciphertext := c, iv := i }).2 ≠ Except.error Err.SkippedTooMany) ∧
    ((ratchetDecrypt { st with dhRecv := some r }
        { header := { dhPublicKey := r, pn := p, n := st.nr + MAX_SKIP + 1 },
          ciphertext := c, iv := i }).2 = Except.error Err.SkippedTooMany) := by
  have hb : ¬ (st.nr + MAX_SKIP < st.nr + MAX_SKIP) := by omega
  have hb1 : st.nr + MAX_SKIP < st.nr + MAX_SKIP + 1 := by omega
  refine ⟨?_, ?_, ?_, ?_, ?_, ?_⟩
  · rw [skipMessageKeys_spec]; split <;> rfl
  · rw [skipMessageKeys_spec, if_neg hb]
  · rw [skipMessageKeys_spec, if_neg hb]
    have h := skipLoop_run_nr st (st.nr + MAX_SKIP)
    rw [Nat.max_eq_right (Nat.le_add_right _ _)] at h
    exact h
  · rw [skipMessageKeys_spec, if_pos hb1]
  · have hred : ratchetDecrypt { st with dhRecv := some r }
        { header := { dhPublicKey := r, pn := p, n := st.nr + MAX_SKIP },
          ciphertext := c, iv := i }
        = decryptCont { st with dhRecv := some r }
        { header := { dhPublicKey := r, pn := p, n := st.nr + MAX_SKIP },
          ciphertext := c, iv := i } := by
      unfold ratchetDecrypt; rw [if_pos rfl]
    rw [hred]
    exact decryptCont_no_skip_err _ _ hb
  · have hred : ratchetDecrypt { st with dhRecv := some r }
        { header := { dhPublicKey := r, pn := p, n := st.nr + MAX_SKIP + 1 },
          ciphertext := c, iv := i }
        = decryptCont { st with dhRecv := some r }
        { header := { dhPublicKey := r, pn := p, n := st.nr + MAX_SKIP + 1 },
          ciphertext := c, iv := i } := by
      unfold ratchetDecrypt; rw [if_pos rfl]
    rw [hred]
    exact decryptCont_skip_err _ _ hb1

/-- Claim C7 (confirmed): `encrypt` increments Ns by exactly one and
leaves Nr/Pn alone; a `decrypt` that performs no DH-ratchet step (header
key equals the last known remote key) preserves Ns and Pn and only ever
raises Nr (by one per derived receiving-chain key); a `decrypt` that does
ratchet clears Ns; the DH-ratchet step itself is the only place the
counters are reset — it sets Pn to the old Ns, clears Ns, and restarts
Nr from 0 before the old-chain skip raises it to the header's Pn. -/
theorem claim_C7 (st : RatchetState) (pt : String) (m : EncryptedMessage)
    (r p : Nat) :
    ((ratchetEncrypt st pt).2.ns = st.ns + 1 ∧
     (ratchetEncrypt st pt).2.nr = st.nr ∧
     (ratchetEncrypt st pt).2.pn = st.pn) ∧
    (st.dhRecv = some m.header.dhPublicKey →
      ((ratchetDecrypt st m).1.ns = st.ns ∧
       (ratchetDecrypt st m).1.pn = st.pn ∧
       (ratchetDecrypt st m).1.nr =
         (if st.nr + MAX_SKIP < m.header.n then st.nr
          else max st.nr m.header.n + 1))) ∧
    (st.dhRecv ≠ some m.header.dhPublicKey →
      (ratchetDecrypt st m).1.ns = 0) ∧
    ((performDHRatchet st r p).1.ns = 0 ∧
     (performDHRatchet st r p).1.pn = st.ns ∧
     (performDHRatchet st r p).1.nr = (if MAX_SKIP < p then 0 else p)) := by
  refine ⟨⟨rfl, rfl, rfl⟩, ?_, ?_, ratchet_counters st r p⟩
  · intro h
    have hred : ratchetDecrypt st m = decryptCont st m := by
      unfold ratchetDecrypt; rw [if_pos h]
    rw [hred]
    exact ⟨(decryptCont_ns_pn st m).1, (decryptCont_ns_pn st m).2,
      decryptCont_nr st m⟩
  · intro h
    have hc := (ratchet_counters st m.header.dhPublicKey m.header.pn).1
    have hred : ratchetDecrypt st m =
        (match performDHRatchet st m.header.dhPublicKey m.header.pn with
         | (st1, some e) => (st1, Except.error e)
         | (st1, none) => decryptCont st1 m) := by
      unfold ratchetDecrypt; rw [if_neg h]
    rw [hred]
    cases hr : performDHRatchet st m.header.dhPublicKey m.header.pn with
    | mk st1 oe =>
      rw [hr] at hc
      cases oe with
      | some e => simpa using hc
      | none =>
        show (decryptCont st1 m).1.ns = 0
        rw [(decryptCont_ns_pn st1 m).1]
        simpa using hc

/-- Claim C2 (code bug): round-trip is supposed to hold for any
interleaving of sends, but a fully in-order interleaving breaks it.
Alice sends 1001 messages, Bob decrypts all of them successfully and in
order, Bob replies, Alice decrypts the reply — and Alice's next message
is then rejected by Bob with `SkippedTooMany` instead of decrypting,
because the DH-ratchet step resets Nr to 0 before skipping up to the
header's Pn = 1001 and trips the MAX_SKIP guard. -/
theorem claim_C2 :
    c2B.2 = List.replicate 1001 (Except.ok ("p")) ∧
    c2aliceDec.2 = Except.ok ("reply") ∧
    c2final.2 = Except.error Err.SkippedTooMany := by
  have hA : c2A = (aliceAfter 1001, aliceMsgs 0 1001) := by
    show encryptN aliceSt0 1001 = _
    rw [aliceSt0_eq]
    simpa using alice_run 1001 0
  have hB : c2B = (bobAfter 1001, List.replicate 1001 (Except.ok ("p"))) := by
    show bobRun bobSt0 c2A.2 = _
    rw [hA]
    have hcons : bobRun bobSt0 (aliceMsgs 0 1001)
        = ((bobRun (ratchetDecrypt bobSt0 (aliceMsg 0)).1 (aliceMsgs 1 1000)).1,
           (ratchetDecrypt bobSt0 (aliceMsg 0)).2
             :: (bobRun (ratchetDecrypt bobSt0 (aliceMsg 0)).1
                  (aliceMsgs 1 1000)).2) := rfl
    rw [hcons, bob_first]
    dsimp only
    rw [bob_run 1000 1]
    rfl
  have hr0 : c2r0 = (r0Msg, bobSend1) := by
    show ratchetEncrypt c2B.1 ("reply") = _
    rw [show c2B.1 = bobAfter 1001 from by rw [hB]]
    rfl
  have hAD : c2aliceDec = (aliceDec1, Except.ok ("reply")) := by
    show ratchetDecrypt c2A.1 c2r0.1 = _
    rw [show c2A.1 = aliceAfter 1001 from by rw [hA],
        show c2r0.1 = r0Msg from by rw [hr0]]
    rfl
  have hm21 : c2m2.1 = m2Msg := by
    show (ratchetEncrypt c2aliceDec.1 ("p")).1 = _
    rw [show c2aliceDec.1 = aliceDec1 from by rw [hAD]]
    rfl
  have hfin : c2final.2 = Except.error Err.SkippedTooMany := by
    show (ratchetDecrypt c2r0.2 c2m2.1).2 = _
    rw [show c2r0.2 = bobSend1 from by rw [hr0], hm21]
    rfl
  exact ⟨by rw [hB], by rw [hAD], hfin⟩

/-- Witness for C7 at a concrete mid-conversation state: one in-chain
decrypt and one ratcheting decrypt. -/
theorem claim_C7_witness :
    ((ratchetEncrypt stW ("w")).2.ns = stW.ns + 1 ∧
     (ratchetEncrypt stW ("w")).2.nr = stW.nr ∧
     (ratchetEncrypt stW ("w")).2.pn = stW.pn) ∧
    ((ratchetDecrypt stW mW).1.ns = stW.ns ∧
     (ratchetDecrypt stW mW).1.pn = stW.pn ∧
     (ratchetDecrypt stW mW).1.nr =
       (if stW.nr + MAX_SKIP < mW.header.n then stW.nr
        else max stW.nr mW.header.n + 1)) ∧
    (ratchetDecrypt stW mW2).1.ns = 0 := by
  exact ⟨(claim_C7 stW ("w") mW 0 0).1,
    (claim_C7 stW ("w") mW 0 0).2.1 rfl,
    (claim_C7 stW ("w") mW2 0 0).2.2.1 (by decide)⟩

end BuddyHunt
